import Mathlib

/-!
Verification development for the MoDL MRI reconstruction repository
(`proj_models/modl.py`, `get_instances.py`).

Modelling conventions:
* Real scalars are embedded as `ℚ` (the source computes in exact arithmetic
  terms here; no claim under study depends on rounding).
* Complex values are pairs of rationals (`Cx`), with explicit arithmetic.
* A complex image is a flattened list of complex values (`CImage`); the
  2-channel real/imaginary representation used by the network layers is a
  pair of rational lists (`RImage`).
* The 2D unitary Fourier transform (`fft_torch` from `utils`, not present in
  the sources) is abstracted as an explicit function parameter `F`
  (resp. `Finv` for the inverse); every claim under study depends only on
  the structure surrounding the transform, not on its matrix.
* Fallible code paths (Python `UnboundLocalError`, the spec's claimed
  `ShapeMismatch` / `ConfigurationError`) are embedded with `Except`.
-/

/-- A complex scalar: a pair of rational real and imaginary parts. -/
structure Cx where
  re : ℚ
  im : ℚ
deriving DecidableEq, Repr

instance : Zero Cx := ⟨⟨0, 0⟩⟩

instance : Add Cx := ⟨fun a b => ⟨a.re + b.re, a.im + b.im⟩⟩

instance : Sub Cx := ⟨fun a b => ⟨a.re - b.re, a.im - b.im⟩⟩

instance : Mul Cx := ⟨fun a b => ⟨a.re * b.re - a.im * b.im, a.re * b.im + a.im * b.re⟩⟩

/-- Complex conjugate. -/
def Cx.conj (a : Cx) : Cx := ⟨a.re, -a.im⟩

/-- Scalar multiplication of a complex value by a rational. -/
instance : SMul ℚ Cx := ⟨fun q a => ⟨q * a.re, q * a.im⟩⟩

/-- A complex image, flattened to a list of complex values. -/
abbrev CImage := List Cx

/-- A channel-pair image: the real channel and the imaginary channel, as the
2-channel real representation `(2, nrow, ncol)` used by the learned layers. -/
abbrev RImage := List ℚ × List ℚ

/-- Modelled from the spec: `r2c` from `utils` (not under the sources) —
converts the channel-pair representation to the native complex
representation (spec §3: the two representations are losslessly
interconvertible). -/
def r2c (x : RImage) : CImage := List.zipWith Cx.mk x.1 x.2

/-- Modelled from the spec: `c2r` from `utils` (not under the sources) —
converts the native complex representation back to the channel-pair
representation. -/
def c2r (z : CImage) : RImage := (z.map Cx.re, z.map Cx.im)

/-- Elementwise addition of complex images. -/
def cadd (u v : CImage) : CImage := List.zipWith (fun a b => a + b) u v

/-- Elementwise subtraction of complex images. -/
def csub (u v : CImage) : CImage := List.zipWith (fun a b => a - b) u v

/-- Elementwise (Hadamard) product of complex images. -/
def cmul (u v : CImage) : CImage := List.zipWith (fun a b => a * b) u v

/-- Scaling of a complex image by a rational scalar. -/
def csmul (q : ℚ) (u : CImage) : CImage := u.map (fun a => q • a)

/-- Sum of a list of images (coil recombination). -/
def csum : List CImage → CImage
  | [] => []
  | [u] => u
  | u :: rest => cadd u (csum rest)

/-- Embeds `torch.sum(u.conj() * v).real`: the real part of the complex
inner product of two images. -/
def dotRe (u v : CImage) : ℚ :=
  ((List.zipWith (fun a b => Cx.conj a * b) u v).foldr (fun a b => a + b) 0).re

/-- Embeds `torch.zeros_like`. -/
def zerosLike (z : CImage) : CImage := z.map (fun _ => (0 : Cx))

/-- The CG residual tolerance `1e-10` from `modl.py` line 66. -/
def cgTol : ℚ := 1 / 10 ^ 10

/-- The loop of `myCG` (`modl.py` lines 64-75), fuel-indexed: fuel `n`
stands for the remaining budget `10 - i` of the `while i < 10 and
rTr > 1e-10` loop; each pass performs `Ap = AtA(p)`,
`alpha = rTr / sum(p.conj()*Ap).real`, `x += alpha*p`, `r -= alpha*Ap`,
`beta = rTrNew / rTr`, `p = r + beta*p`. -/
def cgRun (AtA : CImage → CImage) : ℕ → CImage → CImage → CImage → ℚ → CImage
  | 0, x, _, _, _ => x
  | n + 1, x, r, p, rTr =>
    if rTr > cgTol then
      let Ap := AtA p
      let alpha := rTr / dotRe p Ap
      let x2 := cadd x (csmul alpha p)
      let r2 := csub r (csmul alpha Ap)
      let rTrNew := dotRe r2 r2
      let beta := rTrNew / rTr
      let p2 := cadd r2 (csmul beta p)
      cgRun AtA n x2 r2 p2 rTrNew
    else x

/-- Embeds `myCG` (`modl.py` lines 57-76): convert `rhs` to complex, start
from `x = 0`, `r = p = rhs`, run the CG loop for at most 10 iterations,
convert the result back to channel-pair form. -/
def myCG (AtA : CImage → CImage) (rhs : RImage) : RImage :=
  let b := r2c rhs
  c2r (cgRun AtA 10 (zerosLike b) b b (dotRe b b))

/-- CG iteration state as the spec describes it: solution estimate `x`,
residual `r`, search direction `p`, and the residual squared norm `rTr`. -/
structure CGState where
  x : CImage
  r : CImage
  p : CImage
  rTr : ℚ
deriving Repr

/-- Written from the spec sentence (§4.2): one step of the standard CG
recurrence — `Ap = AtA(p)`, `alpha = rHr / Re(pH(Ap))`, `x += alpha*p`,
`r -= alpha*Ap`, `beta = rHnew rnew / rHr`, `p = r + beta*p`. -/
def cgSpecStep (AtA : CImage → CImage) (st : CGState) : CGState :=
  let Ap := AtA st.p
  let alpha := st.rTr / dotRe st.p Ap
  let x2 := cadd st.x (csmul alpha st.p)
  let r2 := csub st.r (csmul alpha Ap)
  let rTrNew := dotRe r2 r2
  let beta := rTrNew / st.rTr
  ⟨x2, r2, cadd r2 (csmul beta st.p), rTrNew⟩

/-- Written from the spec sentence: iterate `cgSpecStep` with an iteration
budget, stopping early as soon as the residual squared norm is no longer
above `1e-10`. -/
def cgSpecLoop (AtA : CImage → CImage) : ℕ → CGState → CGState
  | 0, st => st
  | n + 1, st => if st.rTr ≤ cgTol then st else cgSpecLoop AtA n (cgSpecStep AtA st)

/-- Written from the spec sentence: starting from `x = 0`, `r = p = rhs`
(after channel-pair to complex conversion), run at most 10 CG steps and
return `x` converted back to channel-pair form. -/
def cgSpec (AtA : CImage → CImage) (rhs : RImage) : RImage :=
  let b := r2c rhs
  c2r (cgSpecLoop AtA 10 ⟨zerosLike b, b, b, dotRe b b⟩).x

/-- A per-coil sensitivity map: one complex field per coil. -/
abbrev Csm := List CImage

/-- A sampling mask, as a rational 0/1 field. -/
abbrev Mask := List ℚ

/-- Elementwise application of a sampling mask to a k-space image. -/
def maskMul (mask : Mask) (k : CImage) : CImage :=
  List.zipWith (fun m z => m • z) mask k

/-- Modelled from the spec: `mri.SenseOp.fwd` (the file `proj_models/mri.py`
is not under the sources). Spec §4.1: multiply the image by each coil map,
apply the 2D unitary DFT per coil image (the parameter `F`), then zero out
the frequency locations absent from the sampling mask. -/
def senseFwd (F : CImage → CImage) (csm : Csm) (mask : Mask) (im : CImage) :
    List CImage :=
  csm.map (fun c => maskMul mask (F (cmul c im)))

/-- Modelled from the spec: `mri.SenseOp.adj` (file not under the sources).
Spec §4.1: apply the inverse 2D unitary DFT per coil (the parameter
`Finv`), multiply by the conjugate coil map, sum across coils. -/
def senseAdj (Finv : CImage → CImage) (csm : Csm) (ks : List CImage) : CImage :=
  csum (List.zipWith (fun c k => cmul (c.map Cx.conj) (Finv k)) csm ks)

/-- Embeds `myAtA.forward` (`modl.py` lines 50-55):
`A.adj(A.fwd(im)) + lam * im`, the regularized normal-equations operator. -/
def myAtA (F Finv : CImage → CImage) (csm : Csm) (mask : Mask) (lam : ℚ)
    (im : CImage) : CImage :=
  cadd (senseAdj Finv csm (senseFwd F csm mask im)) (csmul lam im)

/-- The state of the `data_consistency` module: its only field is the learned
regularization weight `lam` (`modl.py` line 81). -/
structure DCState where
  lam : ℚ
deriving DecidableEq, Repr

/-- Embeds `data_consistency.__init__` (`modl.py` lines 79-81):
`lam = 0.05`. -/
def dc_init : DCState := ⟨1 / 20⟩

/-- Elementwise addition on channel-pair images. -/
def raddR (a b : RImage) : RImage :=
  (List.zipWith (fun x y => x + y) a.1 b.1, List.zipWith (fun x y => x + y) a.2 b.2)

/-- Scaling of a channel-pair image by a rational scalar. -/
def rsmulR (q : ℚ) (a : RImage) : RImage :=
  (a.1.map (fun x => q * x), a.2.map (fun x => q * x))

/-- Embeds `data_consistency.forward` (`modl.py` lines 83-87):
`rhs = x0 + lam * z_k`, build `myAtA(csm, mask, lam)`, return
`myCG(AtA, rhs)`. -/
def dc_forward (F Finv : CImage → CImage) (s : DCState) (zk x0 : RImage)
    (csm : Csm) (mask : Mask) : RImage :=
  let rhs := raddR x0 (rsmulR s.lam zk)
  myCG (myAtA F Finv csm mask s.lam) rhs

/-- Written from the spec sentence (§4.2 / claim C2): build
`rhs = x0 + lam * z_k`, form the operator `x ↦ AH(A(x)) + lam * x` from the
coil-weighted, mask-restricted Fourier forward operator, and return the
CG solve of that system on that right-hand side, initialized at `x = 0`
(starting the loop from `zerosLike`). -/
def dcSpec (F Finv : CImage → CImage) (lam : ℚ) (zk x0 : RImage)
    (csm : Csm) (mask : Mask) : RImage :=
  let rhs := raddR x0 (rsmulR lam zk)
  let b := r2c rhs
  let AtAop : CImage → CImage :=
    fun x => cadd (senseAdj Finv csm (senseFwd F csm mask x)) (csmul lam x)
  c2r (cgSpecLoop AtAop 10 ⟨zerosLike b, b, b, dotRe b b⟩).x

/-- Python-level failures surfaced by the model forward passes. -/
inductive PyErr where
  | unboundLocal
deriving DecidableEq, Repr

/-- Embeds the `for k in range(self.k_iters)` loop shared by `MoDL.forward`
(`modl.py` lines 106-112) and `MoDL_ssdu.forward` (lines 134-140): each
pass computes `z_k = dw(x_k)` then `x_k = dc(z_k, ...)`; the `Option`
tracks whether `z_k` has ever been assigned. -/
def modlLoop (dw dcf : RImage → RImage) : ℕ → RImage → Option RImage →
    RImage × Option RImage
  | 0, x, z => (x, z)
  | k + 1, x, _ => modlLoop dw dcf k (dcf (dw x)) (some (dw x))

/-- Embeds `MoDL.forward` (`modl.py` lines 100-113): start from
`x_k = x0.clone()`, run `k_iters` denoiser / data-consistency iterations,
return `(r2c x_k, r2c z_k)`; when the loop body never executed, the final
`r2c(z_k)` raises `UnboundLocalError` because `z_k` was never assigned. -/
def MoDL_forward (dw : RImage → RImage) (F Finv : CImage → CImage)
    (s : DCState) (kIters : ℕ) (x0 : RImage) (csm : Csm) (mask : Mask) :
    Except PyErr (CImage × CImage) :=
  match modlLoop dw (fun z => dc_forward F Finv s z x0 csm mask) kIters x0 none with
  | (_, none) => .error .unboundLocal
  | (xk, some zk) => .ok (r2c xk, r2c zk)

/-- Embeds `MoDL_ssdu.SSDU_kspace` (`modl.py` lines 146-162): convert the
image to complex, weight by each coil map, apply the unitary Fourier
transform (`F`), elementwise-multiply by the loss mask, and convert each
coil k-space back to channel-pair form. (The two `swapaxes` in the source
only transpose the batch and coil axes for layout; in this per-coil list
model their composition is the identity.) -/
def SSDU_kspace (F : CImage → CImage) (img : RImage) (csm : Csm)
    (lossMask : Mask) : List RImage :=
  let imgC := r2c img
  csm.map (fun c => c2r (maskMul lossMask (F (cmul c imgC))))

/-- Embeds `MoDL_ssdu.forward` (`modl.py` lines 127-144): the same unrolled
loop run with the training mask, then `SSDU_kspace(x_k, csm, loss_mask)`,
returning `(r2c x_k, kspace_x_k, r2c z_k)`; `z_k` unbound when the loop
never ran. -/
def MoDL_ssdu_forward (dw : RImage → RImage) (F Finv : CImage → CImage)
    (s : DCState) (kIters : ℕ) (x0 : RImage) (csm : Csm)
    (trnMask lossMask : Mask) : Except PyErr (CImage × List RImage × CImage) :=
  match modlLoop dw (fun z => dc_forward F Finv s z x0 csm trnMask) kIters x0 none with
  | (_, none) => .error .unboundLocal
  | (xk, some zk) => .ok (r2c xk, SSDU_kspace F xk csm lossMask, r2c zk)

/-- Written from the spec sentence (§4.4 / claim C3): the state after `k`
transitions of `z = Denoiser(x); x = DataConsistency(z, ...)`, starting
from `x = x0`. -/
def unrollX (dw dcf : RImage → RImage) : ℕ → RImage → RImage
  | 0, x0 => x0
  | k + 1, x0 => dcf (dw (unrollX dw dcf k x0))

/-- The number of executed iterations of the `myCG` while loop (`modl.py`
line 66), fuel-indexed like `cgRun`. The solution estimate `x` is omitted:
it never feeds the loop guard. -/
def cgIterCount (AtA : CImage → CImage) : ℕ → CImage → CImage → ℚ → ℕ
  | 0, _, _, _ => 0
  | n + 1, r, p, rTr =>
    if rTr > cgTol then
      let Ap := AtA p
      let alpha := rTr / dotRe p Ap
      let r2 := csub r (csmul alpha Ap)
      let rTrNew := dotRe r2 r2
      let beta := rTrNew / rTr
      cgIterCount AtA n r2 (cadd r2 (csmul beta p)) rTrNew + 1
    else 0

/-- The number of CG iterations `myCG AtA rhs` executes. -/
def myCGIterCount (AtA : CImage → CImage) (rhs : RImage) : ℕ :=
  let b := r2c rhs
  cgIterCount AtA 10 b b (dotRe b b)

/-- The state-threaded form of `data_consistency.forward` (`modl.py` lines
83-87): the body reads `self.lam` but contains no assignment to it, so the
module state is returned unchanged. -/
def dc_forwardSt (F Finv : CImage → CImage) (s : DCState) (zk x0 : RImage)
    (csm : Csm) (mask : Mask) : RImage × DCState :=
  (dc_forward F Finv s zk x0 csm mask, s)

/-- The unrolled loop with the `data_consistency` state threaded explicitly
and, for each iteration, a record of the `lam` value the data-consistency
step read. Returns (final image, last denoiser output, final module state,
per-iteration `lam` trace). -/
def modlLoopSt (dw : RImage → RImage)
    (dcSt : DCState → RImage → RImage × DCState) :
    ℕ → DCState → RImage → Option RImage →
    RImage × Option RImage × DCState × List ℚ
  | 0, s, x, z => (x, z, s, [])
  | k + 1, s, x, _ =>
    let zk := dw x
    let step := dcSt s zk
    let rest := modlLoopSt dw dcSt k step.2 step.1 (some zk)
    (rest.1, rest.2.1, rest.2.2.1, s.lam :: rest.2.2.2)

/-- Tensor shapes, as dimension lists. -/
abbrev Shape := List ℕ

/-- The error the spec says shape-inconsistent inputs must fail with. -/
inductive RecError where
  | shapeMismatch
deriving DecidableEq, Repr

/-- Written from the spec sentence (§6 and claim C5): the image
`(B, 2, rows, cols)`, CSM `(B, coils, rows, cols)` and mask
`(B, rows, cols)` shapes are mutually consistent when the batch, row and
column dimensions agree and the image has 2 channels. -/
def shapesConsistent (imgS csmS maskS : Shape) : Bool :=
  match imgS, csmS, maskS with
  | [b, ch, r, c], [b2, _nc, r2, c2], [b3, r3, c3] =>
    b == b2 && b == b3 && ch == 2 && r == r2 && r == r3 && c == c2 && c == c3
  | _, _, _ => false

/-- The fields `myAtA.__init__` stores (`modl.py` lines 42-48), at shape
level. -/
structure AtAShapes where
  csmS : Shape
  maskS : Shape
  lam : ℚ
deriving DecidableEq, Repr

/-- Embeds `myAtA.__init__` (`modl.py` lines 42-48): it stores `csm`,
`mask`, `lam` and constructs `mri.SenseOp(csm, mask)`, with no inspection
of any shape; the `Except` return records that no error is ever raised
here. -/
def myAtA_init (csmS maskS : Shape) (lam : ℚ) : Except RecError AtAShapes :=
  .ok ⟨csmS, maskS, lam⟩

/-- Shape-level embedding of `data_consistency.forward` (`modl.py` lines
83-87): the body computes `rhs = x0 + lam * z_k`, constructs
`myAtA(csm, mask, lam)` and calls `myCG`; none of these steps compares the
image shape `z_k`/`x0` against the CSM or mask shapes, so the operator
construction is reached for every shape combination. -/
def dc_forward_checked (_zS _x0S csmS maskS : Shape) (lam : ℚ) :
    Except RecError AtAShapes :=
  myAtA_init csmS maskS lam

/-- Errors observable from `get_model` (`get_instances.py` lines 41-57).
`configurationError` is the explicit validation error the spec claims;
`unboundLocalModel` is Python's `UnboundLocalError` raised at
`model.to(device)` when none of the three `if` branches assigned `model`. -/
inductive GetModelError where
  | configurationError
  | unboundLocalModel
deriving DecidableEq, Repr

/-- The three model variants `get_model` can construct. -/
inductive ModelChoice where
  | modl
  | modlSsdu
  | varnet
deriving DecidableEq, Repr

/-- Embeds `get_model` (`get_instances.py` lines 41-57): three independent
`if` assignments with no `else` branch; for any other name the local
`model` is never assigned, and the call fails at `model.to(device)` with
`UnboundLocalError`. -/
def get_model (name : String) : Except GetModelError ModelChoice :=
  if name = "base_modl" then .ok .modl
  else if name = "base_modl_ssdu" then .ok .modlSsdu
  else if name = "base_varnet" then .ok .varnet
  else .error .unboundLocalModel

/-- Filesystem effects performed by `CheckpointSaver.save_model`
(`get_instances.py` lines 142-155). -/
inductive FsEvent where
  | removeFile (name : String)
  | saveModel (epoch : ℕ)
deriving DecidableEq, Repr

/-- Embeds the `final=True` branch of `CheckpointSaver.save_model`
(`get_instances.py` lines 145-155): `for f in os.listdir(...)`, remove `f`
when it starts with `final`, and — indented inside the same loop body —
build the model path and `torch.save` the state (the `best_score` /
`saved_epoch` field updates, also inside the loop, carry no filesystem
effect and are elided). -/
def save_model_final (files : List String) (epoch : ℕ) : List FsEvent :=
  files.flatMap (fun f =>
    (if f.startsWith "final" then [FsEvent.removeFile f] else [])
      ++ [FsEvent.saveModel epoch])

/-- The number of checkpoint writes in an effect trace. -/
def countSaves (evs : List FsEvent) : ℕ :=
  (evs.filter (fun e => match e with
    | FsEvent.saveModel _ => true
    | _ => false)).length

/-- Decidable equality for `Except` results, used to evaluate the embedded
fallible calls on concrete inputs. -/
instance {ε α : Type} [DecidableEq ε] [DecidableEq α] : DecidableEq (Except ε α) :=
  fun a b =>
    match a, b with
    | .error e, .error f =>
      match decEq e f with
      | isTrue h => isTrue (by rw [h])
      | isFalse h => isFalse (fun hh => h (Except.error.inj hh))
    | .ok x, .ok y =>
      match decEq x y with
      | isTrue h => isTrue (by rw [h])
      | isFalse h => isFalse (fun hh => h (Except.ok.inj hh))
    | .error _, .ok _ => isFalse (fun hh => Except.noConfusion hh)
    | .ok _, .error _ => isFalse (fun hh => Except.noConfusion hh)

/-- A data-consistency step as the unrolled loop sees it: `z_k` mapped to
`dc(z_k, x0, csm, mask)` with the other arguments fixed. -/
def dcfOf (F Finv : CImage → CImage) (s : DCState) (x0 : RImage) (csm : Csm)
    (mask : Mask) : RImage → RImage :=
  fun z => dc_forward F Finv s z x0 csm mask

/-- A constant-zero denoiser on 1-pixel images, used to instantiate the
forward-pass theorems on concrete inputs. -/
def dwZero : RImage → RImage := fun _ => ([0], [0])

/-- A concrete 1-pixel zero-filled reconstruction. -/
def x0W : RImage := ([0], [0])

/-- A concrete single-coil, 1-pixel sensitivity map. -/
def csmW : Csm := [[⟨1, 0⟩]]

/-- A concrete all-ones 1-pixel sampling mask. -/
def maskW : Mask := [1]

/-- A concrete all-zeros 1-pixel loss mask. -/
def lossW : Mask := [0]

/-- A concrete 2-pixel channel-pair image. -/
def imgW : RImage := ([1, 2], [0, 0])

/-- A concrete single-coil, 2-pixel sensitivity map. -/
def csmW2 : Csm := [[⟨1, 0⟩, ⟨1, 0⟩]]

/-- A concrete 2-pixel loss mask sampling only the second location. -/
def lossW2 : Mask := [0, 1]

/-- The SSDU projection of `imgW` under `csmW2`, `lossW2` and the identity
transform. -/
def rowW : RImage := ([0, 2], [0, 0])

theorem Cx.zero_re : (0 : Cx).re = 0 := rfl

theorem Cx.zero_im : (0 : Cx).im = 0 := rfl

theorem Cx.smul_def (q : ℚ) (a : Cx) : q • a = ⟨q * a.re, q * a.im⟩ := rfl

theorem Cx.mul_def (a b : Cx) :
    a * b = ⟨a.re * b.re - a.im * b.im, a.re * b.im + a.im * b.re⟩ := rfl

theorem Cx.add_def (a b : Cx) : a + b = ⟨a.re + b.re, a.im + b.im⟩ := rfl

theorem cgRun_eq_specLoop (AtA : CImage → CImage) :
    ∀ (n : ℕ) (x r p : CImage) (rTr : ℚ),
      cgRun AtA n x r p rTr = (cgSpecLoop AtA n ⟨x, r, p, rTr⟩).x := by
  intro n
  induction n with
  | zero => intro x r p rTr; rfl
  | succ n ih =>
    intro x r p rTr
    by_cases h : rTr > cgTol
    · rw [cgRun, cgSpecLoop, if_pos h, if_neg (not_le_of_lt h)]
      exact ih _ _ _ _
    · rw [cgRun, cgSpecLoop, if_neg h, if_pos (le_of_not_lt h)]

theorem unrollX_shift (dw dcf : RImage → RImage) :
    ∀ (k : ℕ) (x0 : RImage),
      unrollX dw dcf (k + 1) x0 = unrollX dw dcf k (dcf (dw x0)) := by
  intro k
  induction k with
  | zero => intro x0; rfl
  | succ k ih =>
    intro x0
    rw [unrollX, ih x0]
    rfl

theorem modlLoop_char (dw dcf : RImage → RImage) :
    ∀ (k : ℕ) (x0 : RImage) (z : Option RImage),
      modlLoop dw dcf (k + 1) x0 z =
        (unrollX dw dcf (k + 1) x0, some (dw (unrollX dw dcf k x0))) := by
  intro k
  induction k with
  | zero => intro x0 z; rfl
  | succ k ih =>
    intro x0 z
    rw [modlLoop, ih, unrollX_shift dw dcf (k + 1) x0, unrollX_shift dw dcf k x0]

theorem cgIterCount_le (AtA : CImage → CImage) :
    ∀ (n : ℕ) (r p : CImage) (rTr : ℚ), cgIterCount AtA n r p rTr ≤ n := by
  intro n
  induction n with
  | zero => intro r p rTr; exact Nat.le_refl 0
  | succ n ih =>
    intro r p rTr
    rw [cgIterCount]
    by_cases h : rTr > cgTol
    · rw [if_pos h]
      exact Nat.succ_le_succ (ih _ _ _)
    · rw [if_neg h]
      exact Nat.zero_le _

/-- C1: `myCG(AtA, rhs)`, after converting `rhs` from channel-pair to
complex, starts from `x = 0` with `r = p = rhs` and applies the standard CG
recurrence — `Ap = AtA(p)`, `alpha = rHr / Re(pH(Ap))`, `x += alpha*p`,
`r -= alpha*Ap`, `beta = rHnew rnew / rHr`, `p = r + beta*p` — stopping
after at most 10 iterations or as soon as the residual squared norm `rHr`
is no longer above `1e-10`, whichever occurs first, and returns `x`
converted back to channel-pair form: `myCG` coincides with `cgSpec`, the
procedure written from the spec sentence. -/
theorem myCG_follows_cg_recurrence (AtA : CImage → CImage) (rhs : RImage) :
    myCG AtA rhs = cgSpec AtA rhs := by
  show c2r (cgRun AtA 10 (zerosLike (r2c rhs)) (r2c rhs) (r2c rhs)
      (dotRe (r2c rhs) (r2c rhs))) =
    c2r (cgSpecLoop AtA 10
      ⟨zerosLike (r2c rhs), r2c rhs, r2c rhs, dotRe (r2c rhs) (r2c rhs)⟩).x
  rw [cgRun_eq_specLoop]

/-- C2: `data_consistency.forward(z_k, x0, csm, mask)` builds
`rhs = x0 + lam * z_k`, constructs the normal-equations operator with
`AtA(x) = AH(A(x)) + lam * x` over the coil-weighted, mask-restricted
Fourier forward operator, and returns the conjugate-gradient solve of that
system initialized at `x = 0`: `dc_forward` coincides with `dcSpec`, the
procedure written from the spec sentence. -/
theorem dc_forward_solves_normal_equations (F Finv : CImage → CImage)
    (lam : ℚ) (zk x0 : RImage) (csm : Csm) (mask : Mask) :
    dc_forward F Finv ⟨lam⟩ zk x0 csm mask = dcSpec F Finv lam zk x0 csm mask := by
  show c2r (cgRun (myAtA F Finv csm mask lam) 10
      (zerosLike (r2c (raddR x0 (rsmulR lam zk))))
      (r2c (raddR x0 (rsmulR lam zk)))
      (r2c (raddR x0 (rsmulR lam zk)))
      (dotRe (r2c (raddR x0 (rsmulR lam zk))) (r2c (raddR x0 (rsmulR lam zk))))) =
    c2r (cgSpecLoop (myAtA F Finv csm mask lam) 10
      ⟨zerosLike (r2c (raddR x0 (rsmulR lam zk))),
       r2c (raddR x0 (rsmulR lam zk)),
       r2c (raddR x0 (rsmulR lam zk)),
       dotRe (r2c (raddR x0 (rsmulR lam zk))) (r2c (raddR x0 (rsmulR lam zk)))⟩).x
  rw [cgRun_eq_specLoop]

/-- C7: the step-size division in `myCG` is unguarded — the loop body is
entered for every operator and right-hand side with no test on the
denominator `Re(pH(Ap))`, `myCG` always returns normally (first conjunct:
it equals running the loop on the given input, whatever the denominators
are), and the executed iteration count is bounded by the 10-iteration cap
alone (second conjunct). -/
theorem myCG_unguarded_and_capped :
    (∀ (AtA : CImage → CImage) (rhs : RImage),
        myCG AtA rhs =
          c2r (cgRun AtA 10 (zerosLike (r2c rhs)) (r2c rhs) (r2c rhs)
            (dotRe (r2c rhs) (r2c rhs)))) ∧
    (∀ (AtA : CImage → CImage) (rhs : RImage), myCGIterCount AtA rhs ≤ 10) := by
  constructor
  · intro AtA rhs
    rfl
  · intro AtA rhs
    exact cgIterCount_le AtA 10 _ _ _

/-- C10: when constructed with `k_iters = 0`, both `MoDL.forward` and
`MoDL_ssdu.forward` fail on every input: the iteration loop body never
executes, so `z_k` is never assigned and the return expression raises
`UnboundLocalError`. -/
theorem forward_with_zero_iters_fails (dw : RImage → RImage)
    (F Finv : CImage → CImage) (s : DCState) (x0 : RImage) (csm : Csm)
    (mask trn loss : Mask) :
    MoDL_forward dw F Finv s 0 x0 csm mask = .error .unboundLocal ∧
    MoDL_ssdu_forward dw F Finv s 0 x0 csm trn loss = .error .unboundLocal :=
  ⟨rfl, rfl⟩

/-- C9: in `CheckpointSaver.save_model` with `final=True`, the checkpoint
write sits inside the loop over the files listed in the checkpoints
directory: the trace contains exactly one save per listed file — hence
zero saves when the listing is empty (second conjunct). -/
theorem save_model_final_saves_once_per_file :
    (∀ (files : List String) (epoch : ℕ),
        countSaves (save_model_final files epoch) = files.length) ∧
    (∀ epoch : ℕ, save_model_final [] epoch = []) := by
  constructor
  · intro files epoch
    induction files with
    | nil => rfl
    | cons f fs ih =>
      by_cases h : f.startsWith "final" <;>
        simp [save_model_final, countSaves, List.filter_append, h] at ih ⊢ <;>
        omega
  · intro epoch
    rfl

/-- C5 counterexample: a concretely mismatched image / CSM / mask shape
triple (rows 4 vs 5 vs 6) is not rejected: `data_consistency.forward`
reaches the operator construction and raises no `ShapeMismatch`. -/
theorem shape_mismatch_not_rejected_cex :
    shapesConsistent [1, 2, 4, 4] [1, 3, 5, 5] [1, 6, 6] = false ∧
    dc_forward_checked [1, 2, 4, 4] [1, 2, 4, 4] [1, 3, 5, 5] [1, 6, 6] (1 / 20) ≠
      Except.error RecError.shapeMismatch := by
  exact ⟨rfl, by decide⟩

/-- C5 amended: no shape validation is performed — for every combination of
image, CSM and mask shapes, consistent or not, `myAtA.__init__` and
`data_consistency.forward` proceed to the operator construction and never
raise `ShapeMismatch`. -/
theorem shape_mismatch_never_raised (zS x0S csmS maskS : Shape) (lam : ℚ) :
    dc_forward_checked zS x0S csmS maskS lam = .ok ⟨csmS, maskS, lam⟩ := rfl

/-- C8 counterexample: for the unsupported name `"resnet18"`, `get_model`
does not raise a `ConfigurationError`; it fails with the
`UnboundLocalError` produced by the never-assigned local `model`. -/
theorem get_model_unsupported_cex :
    get_model "resnet18" = .error .unboundLocalModel ∧
    get_model "resnet18" ≠ .error .configurationError := by
  exact ⟨by decide, by decide⟩

/-- C8 amended: for every name outside the supported set `{base_modl,
base_modl_ssdu, base_varnet}`, `get_model` raises an error on every call —
the `UnboundLocalError` from the unassigned `model` local at
`model.to(device)`, not an explicit `ConfigurationError` — and never
returns a model. -/
theorem get_model_unsupported_fails (name : String)
    (h1 : name ≠ "base_modl") (h2 : name ≠ "base_modl_ssdu")
    (h3 : name ≠ "base_varnet") :
    get_model name = .error .unboundLocalModel := by
  unfold get_model
  rw [if_neg h1, if_neg h2, if_neg h3]

/-- Concrete instantiation of `get_model_unsupported_fails` at the
unsupported name `"unet"`. -/
theorem get_model_unsupported_fails_witness :
    ("unet" ≠ "base_modl" ∧ "unet" ≠ "base_modl_ssdu" ∧ "unet" ≠ "base_varnet") ∧
    get_model "unet" = .error .unboundLocalModel :=
  ⟨⟨by decide, by decide, by decide⟩,
    get_model_unsupported_fails "unet" (by decide) (by decide) (by decide)⟩

theorem Cx.zero_smul (a : Cx) : (0 : ℚ) • a = 0 := by
  show Cx.mk (0 * a.re) (0 * a.im) = Cx.mk 0 0
  rw [zero_mul, zero_mul]

theorem maskMul_getElem_zero :
    ∀ (mask : Mask) (k : CImage) (li : ℕ), mask[li]? = some 0 →
      ∀ v : Cx, (maskMul mask k)[li]? = some v → v = 0 := by
  intro mask
  induction mask with
  | nil => intro k li hm; exact absurd hm (by simp)
  | cons m ms ih =>
    intro k li hm v hv
    cases k with
    | nil =>
      rw [maskMul, List.zipWith_nil_right] at hv
      simp at hv
    | cons a ks =>
      rw [show maskMul (m :: ms) (a :: ks) = (m • a) :: maskMul ms ks from rfl] at hv
      cases li with
      | zero =>
        simp at hv hm
        rw [← hv, hm]
        exact Cx.zero_smul a
      | succ n =>
        simp at hv hm
        exact ih ks n (by simpa using hm) v (by simpa using hv)

/-- C3: for every `K >= 1`, `MoDL.forward` and `MoDL_ssdu.forward` start
from `x_k = x0` and perform exactly `K` transitions `z_k = Denoiser(x_k)`;
`x_k = DataConsistency(z_k, x0, csm, mask)`, then emit the final image and
the last denoiser output (the `K`-th `z_k = dw(x_{K-1})`), both converted
from channel-pair to native complex representation; the SSDU variant
additionally emits its k-space projection. -/
theorem modl_forward_unrolls (dw : RImage → RImage) (F Finv : CImage → CImage)
    (s : DCState) (K : ℕ) (x0 : RImage) (csm : Csm) (mask trn loss : Mask)
    (hK : 1 ≤ K) :
    MoDL_forward dw F Finv s K x0 csm mask =
      .ok (r2c (unrollX dw (dcfOf F Finv s x0 csm mask) K x0),
           r2c (dw (unrollX dw (dcfOf F Finv s x0 csm mask) (K - 1) x0))) ∧
    MoDL_ssdu_forward dw F Finv s K x0 csm trn loss =
      .ok (r2c (unrollX dw (dcfOf F Finv s x0 csm trn) K x0),
           SSDU_kspace F (unrollX dw (dcfOf F Finv s x0 csm trn) K x0) csm loss,
           r2c (dw (unrollX dw (dcfOf F Finv s x0 csm trn) (K - 1) x0))) := by
  obtain ⟨k, rfl⟩ : ∃ k, K = k + 1 := ⟨K - 1, (Nat.succ_pred_eq_of_pos hK).symm⟩
  constructor
  · unfold MoDL_forward
    rw [modlLoop_char]
    rfl
  · unfold MoDL_ssdu_forward
    rw [modlLoop_char]
    rfl

/-- Concrete instantiation of `modl_forward_unrolls` with a single unrolled
iteration, the constant-zero denoiser and the identity transform on
1-pixel data. -/
theorem modl_forward_unrolls_witness :
    1 ≤ 1 ∧
    (MoDL_forward dwZero id id dc_init 1 x0W csmW maskW =
      .ok (r2c (unrollX dwZero (dcfOf id id dc_init x0W csmW maskW) 1 x0W),
           r2c (dwZero (unrollX dwZero (dcfOf id id dc_init x0W csmW maskW) 0 x0W))) ∧
     MoDL_ssdu_forward dwZero id id dc_init 1 x0W csmW maskW lossW =
      .ok (r2c (unrollX dwZero (dcfOf id id dc_init x0W csmW maskW) 1 x0W),
           SSDU_kspace id (unrollX dwZero (dcfOf id id dc_init x0W csmW maskW) 1 x0W) csmW lossW,
           r2c (dwZero (unrollX dwZero (dcfOf id id dc_init x0W csmW maskW) 0 x0W)))) :=
  ⟨Nat.le_refl 1,
    modl_forward_unrolls dwZero id id dc_init 1 x0W csmW maskW maskW lossW (Nat.le_refl 1)⟩

/-- C4: the SSDU k-space projection is exactly zero at every location where
the loss mask is 0 (first conjunct), and `MoDL_ssdu.forward` emits this
projection of its final image as the second element of its output tuple
(second conjunct). -/
theorem ssdu_kspace_zero_off_loss_mask :
    (∀ (F : CImage → CImage) (img : RImage) (csm : Csm) (lossMask : Mask)
        (ci li : ℕ) (row : RImage),
        (SSDU_kspace F img csm lossMask)[ci]? = some row →
        lossMask[li]? = some 0 →
        (∀ v : ℚ, row.1[li]? = some v → v = 0) ∧
        (∀ v : ℚ, row.2[li]? = some v → v = 0)) ∧
    (∀ (dw : RImage → RImage) (F Finv : CImage → CImage) (s : DCState) (K : ℕ)
        (x0 : RImage) (csm : Csm) (trn loss : Mask) (xk zk : RImage),
        modlLoop dw (dcfOf F Finv s x0 csm trn) K x0 none = (xk, some zk) →
        MoDL_ssdu_forward dw F Finv s K x0 csm trn loss =
          .ok (r2c xk, SSDU_kspace F xk csm loss, r2c zk)) := by
  constructor
  · intro F img csm lossMask ci li row hrow hm
    simp only [SSDU_kspace, List.getElem?_map] at hrow
    obtain ⟨c, _hc, hgc⟩ := Option.map_eq_some'.mp hrow
    rw [← hgc]
    constructor
    · intro v hv
      simp only [c2r, List.getElem?_map] at hv
      obtain ⟨w, hw, hwv⟩ := Option.map_eq_some'.mp hv
      rw [← hwv, maskMul_getElem_zero lossMask _ li hm w hw]
      rfl
    · intro v hv
      simp only [c2r, List.getElem?_map] at hv
      obtain ⟨w, hw, hwv⟩ := Option.map_eq_some'.mp hv
      rw [← hwv, maskMul_getElem_zero lossMask _ li hm w hw]
      rfl
  · intro dw F Finv s K x0 csm trn loss xk zk hloop
    unfold dcfOf at hloop
    unfold MoDL_ssdu_forward
    rw [hloop]

theorem myCG_of_small_residual (AtA : CImage → CImage) (rhs : RImage)
    (h : dotRe (r2c rhs) (r2c rhs) ≤ cgTol) :
    myCG AtA rhs = c2r (zerosLike (r2c rhs)) := by
  show c2r (cgRun AtA (9 + 1) (zerosLike (r2c rhs)) (r2c rhs) (r2c rhs)
    (dotRe (r2c rhs) (r2c rhs))) = c2r (zerosLike (r2c rhs))
  rw [cgRun, if_neg (not_lt_of_le h)]

theorem dc_forward_at_witness :
    dc_forward id id dc_init ([0], [0]) x0W csmW maskW = x0W := by
  have h : dotRe (r2c (raddR x0W (rsmulR dc_init.lam ([0], [0]))))
      (r2c (raddR x0W (rsmulR dc_init.lam ([0], [0])))) ≤ cgTol := by
    norm_num [dotRe, r2c, raddR, rsmulR, x0W, dc_init, cgTol, Cx.conj, Cx.mul_def,
      Cx.add_def, Cx.zero_re, Cx.zero_im]
  show myCG (myAtA id id csmW maskW dc_init.lam)
    (raddR x0W (rsmulR dc_init.lam ([0], [0]))) = x0W
  rw [myCG_of_small_residual _ _ h]
  rfl

theorem modlLoop_at_witness :
    modlLoop dwZero (dcfOf id id dc_init x0W csmW maskW) 1 x0W none =
      (x0W, some x0W) := by
  show (dcfOf id id dc_init x0W csmW maskW (dwZero x0W), some (dwZero x0W)) =
    (x0W, some x0W)
  rw [show dcfOf id id dc_init x0W csmW maskW (dwZero x0W) =
    dc_forward id id dc_init ([0], [0]) x0W csmW maskW from rfl]
  rw [dc_forward_at_witness]
  rfl

/-- Concrete instantiation of `ssdu_kspace_zero_off_loss_mask`: with the
identity transform, coil map `csmW2` and loss mask `[0, 1]`, the projected
k-space row is zero at the masked-out location 0; and the SSDU forward on
1-pixel data emits the projection of its final image. -/
theorem ssdu_kspace_zero_off_loss_mask_witness :
    ((SSDU_kspace id imgW csmW2 lossW2)[0]? = some rowW ∧
      lossW2[0]? = some (0 : ℚ) ∧
      (∀ v : ℚ, rowW.1[0]? = some v → v = 0)) ∧
    (modlLoop dwZero (dcfOf id id dc_init x0W csmW maskW) 1 x0W none =
        (x0W, some x0W) ∧
      MoDL_ssdu_forward dwZero id id dc_init 1 x0W csmW maskW lossW =
        .ok (r2c x0W, SSDU_kspace id x0W csmW lossW, r2c x0W)) :=
  ⟨⟨by norm_num [SSDU_kspace, r2c, c2r, imgW, csmW2, lossW2, rowW, maskMul, cmul,
      Cx.smul_def, Cx.mul_def], rfl,
    (ssdu_kspace_zero_off_loss_mask.1 id imgW csmW2 lossW2 0 0 rowW
      (by norm_num [SSDU_kspace, r2c, c2r, imgW, csmW2, lossW2, rowW, maskMul, cmul,
        Cx.smul_def, Cx.mul_def])
      rfl).1⟩,
   ⟨modlLoop_at_witness,
    ssdu_kspace_zero_off_loss_mask.2 dwZero id id dc_init 1 x0W csmW maskW lossW
      x0W x0W modlLoop_at_witness⟩⟩

theorem modlLoopSt_char (dw : RImage → RImage) (F Finv : CImage → CImage)
    (x0 : RImage) (csm : Csm) (mask : Mask) :
    ∀ (K : ℕ) (s : DCState) (x : RImage) (z : Option RImage),
      modlLoopSt dw (fun s2 z2 => dc_forwardSt F Finv s2 z2 x0 csm mask) K s x z =
        ((modlLoop dw (fun z2 => dc_forward F Finv s z2 x0 csm mask) K x z).1,
         (modlLoop dw (fun z2 => dc_forward F Finv s z2 x0 csm mask) K x z).2,
         s, List.replicate K s.lam) := by
  intro K
  induction K with
  | zero => intro s x z; rfl
  | succ k ih =>
    intro s x z
    rw [modlLoopSt, modlLoop]
    rw [show dc_forwardSt F Finv s (dw x) x0 csm mask =
      (dc_forward F Finv s (dw x) x0 csm mask, s) from rfl]
    dsimp only
    rw [ih]
    rfl

/-- C6: the regularization weight `lam` is a single scalar initialized to
the positive value `0.05`; within a single forward pass it is only read,
never mutated — the state-threaded unrolled loop returns the
`data_consistency` state unchanged, records the same `lam` value for each
of the `K` iterations, and computes the very images of the plain loop used
by `MoDL.forward` and `MoDL_ssdu.forward`. -/
theorem lam_positive_immutable_shared :
    dc_init.lam = 1 / 20 ∧ 0 < dc_init.lam ∧
    ∀ (dw : RImage → RImage) (F Finv : CImage → CImage) (s : DCState) (K : ℕ)
      (x0 : RImage) (csm : Csm) (mask : Mask),
      (modlLoopSt dw (fun s2 z2 => dc_forwardSt F Finv s2 z2 x0 csm mask)
          K s x0 none).2.2.1 = s ∧
      (modlLoopSt dw (fun s2 z2 => dc_forwardSt F Finv s2 z2 x0 csm mask)
          K s x0 none).2.2.2 = List.replicate K s.lam ∧
      ((modlLoopSt dw (fun s2 z2 => dc_forwardSt F Finv s2 z2 x0 csm mask)
          K s x0 none).1,
       (modlLoopSt dw (fun s2 z2 => dc_forwardSt F Finv s2 z2 x0 csm mask)
          K s x0 none).2.1) =
        modlLoop dw (fun z2 => dc_forward F Finv s z2 x0 csm mask) K x0 none := by
  refine ⟨rfl, by norm_num [dc_init], ?_⟩
  intro dw F Finv s K x0 csm mask
  rw [modlLoopSt_char]
  exact ⟨rfl, rfl, rfl⟩
